import Mathlib

/-!
Verification of the notebooklm-slide-refiner page-processing pipeline.

The development shallowly embeds the pipeline code:
* `parse_pages` / `process_part` / `pyIntChars` embed
  `notebooklm_slide_refiner/utils.py : parse_pages` (strings modelled as
  `List Char`, Python `int()` as an explicit digit parser).
* `build_deck_flow` / `flowCore` embed
  `notebooklm_slide_refiner/flows.py : build_deck_flow`, with filesystem
  and remote effects supplied by an `Env` oracle and the concurrent
  completion order supplied as `Env.arrival`.
* `refine_page_loop` / `backoff_sleep` / `is_retryable` embed the retry
  loop of `notebooklm_slide_refiner/tasks.py : refine_page_task` and
  `notebooklm_slide_refiner/refine.py`, with sleep durations modelled as
  exact rationals.
-/

namespace SlideRefiner

/-- Output paths are pure functions of the page index
(`raw_dir / f"page_{page_index + 1:04d}.png"` etc. in `flows.py`). -/
inductive FPath where
  | raw (page_index : Nat)
  | enhanced (page_index : Nat)
  | deck
  deriving DecidableEq, Repr

/-- The page index an image path belongs to. -/
def FPath.page : FPath → Nat
  | .raw i => i
  | .enhanced i => i
  | .deck => 0

/-- `flows.py : RenderOutcome`. -/
structure RenderOutcome where
  page_index : Nat
  raw_path : FPath
  duration_ms : Nat
  status : String
  deriving DecidableEq, Repr

/-- `flows.py : RefineOutcome`. -/
structure RefineOutcome where
  page_index : Nat
  enhanced_path : Option FPath
  output_path : FPath
  duration_ms : Nat
  status : String
  error : Option String
  deriving DecidableEq, Repr

/-- `manifest.py : ManifestEntry`. -/
structure ManifestEntry where
  page_index : Nat
  raw_path : FPath
  enhanced_path : Option FPath
  status : String
  duration_ms : Nat
  error : Option String
  deriving DecidableEq, Repr

/-- `flows.py : FlowOutcome`. -/
structure FlowOutcome where
  failures : List Nat
  pptx_path : Option FPath
  deriving DecidableEq, Repr

/-! ## Python string helpers (strings as `List Char`) -/

/-- Whitespace characters stripped by Python `str.strip()` / `int()`. -/
def isPySpace (c : Char) : Bool :=
  c = ' ' || c = '\t' || c = '\n' || c = '\r' || c = '\x0b' || c = '\x0c'

/-- Python `str.strip()`. -/
def trimChars (p : List Char) : List Char :=
  ((p.dropWhile isPySpace).reverse.dropWhile isPySpace).reverse

/-- Python `str.split(sep)` for a one-character separator. -/
def splitOnChar (sep : Char) : List Char → List (List Char)
  | [] => [[]]
  | c :: cs =>
    let rest := splitOnChar sep cs
    if c = sep then [] :: rest
    else
      match rest with
      | r :: rs => (c :: r) :: rs
      | [] => [[c]]

/-- Rejoin split pieces: used to model `str.split(sep, maxsplit=1)` as
"head piece" and "remaining pieces rejoined with the separator". -/
def joinWithChar (sep : Char) : List (List Char) → List Char
  | [] => []
  | [p] => p
  | p :: ps => p ++ sep :: joinWithChar sep ps

/-- Digit run accepted by Python `int()`: decimal digits with single
underscores allowed between digits. `lastWasDigit` tracks whether the
previous character was a digit. -/
def pyDigits : Nat → Bool → List Char → Option Nat
  | acc, lastWasDigit, [] => if lastWasDigit then some acc else none
  | acc, lastWasDigit, c :: cs =>
    if c.isDigit then pyDigits (10 * acc + (c.toNat - 48)) true cs
    else if c = '_' && lastWasDigit then pyDigits acc false cs
    else none

/-- Python `int(str)`: strips whitespace, optional sign, digit run.
Raises `ValueError` (modelled as `.error`) on anything else. -/
def pyIntChars (s : List Char) : Except String Int :=
  let t := trimChars s
  match t with
  | '+' :: rest =>
    match pyDigits 0 false rest with
    | some n => .ok (n : Int)
    | none => .error "invalid literal for int() with base 10"
  | '-' :: rest =>
    match pyDigits 0 false rest with
    | some n => .ok (-(n : Int))
    | none => .error "invalid literal for int() with base 10"
  | _ =>
    match pyDigits 0 false t with
    | some n => .ok (n : Int)
    | none => .error "invalid literal for int() with base 10"

/-- Python `range(a, b)` over integers. -/
def intRange (a b : Int) : List Int :=
  (List.range (b - a).toNat).map (fun k => a + (k : Int))

/-! ## `utils.py : parse_pages` -/

/-- One iteration of the `for part in selection.split(",")` loop in
`parse_pages`: returns the indices this part contributes, or the
`ValueError` it raises. -/
def process_part (part : List Char) : Except String (List Int) :=
  let p := trimChars part
  if p = [] then .ok []
  else if p.contains '-' then
    let pieces := splitOnChar '-' p
    match pyIntChars (pieces.headD []),
        pyIntChars (joinWithChar '-' pieces.tail) with
    | .error e, _ => .error e
    | .ok _, .error e => .error e
    | .ok start, .ok «end» =>
      if start ≤ 0 ∨ «end» ≤ 0 then
        .error "Page numbers must be positive."
      else
        .ok (intRange (start - 1) «end»)
  else
    match pyIntChars p with
    | .error e => .error e
    | .ok page =>
      if page ≤ 0 then
        .error "Page numbers must be positive."
      else
        .ok [page - 1]

/-- The `for part in selection.split(",")` loop accumulating into
`indices` (it stops at the first raised `ValueError`). -/
def partsFold : List (List Char) → List Int → Except String (List Int)
  | [], acc => .ok acc
  | part :: rest, acc =>
    match process_part part with
    | .error e => .error e
    | .ok contribution => partsFold rest (acc ++ contribution)

/-- Python `sorted(set(l))` for a list of naturals. -/
def sortedSet (l : List Nat) : List Nat :=
  l.dedup.insertionSort (· ≤ ·)

/-- `utils.py : parse_pages`. A `None` or empty selector selects every
page; otherwise each comma-separated part contributes its indices, the
result is clamped to `[0, total_pages)` and returned as `sorted(set(_))`
(zero-based). `ValueError` is modelled as `.error`. -/
def parse_pages (selection : Option String) (total_pages : Nat) :
    Except String (List Nat) :=
  match selection with
  | none => .ok (List.range total_pages)
  | some s =>
    if s.data = [] then .ok (List.range total_pages)
    else
      match partsFold (splitOnChar ',' s.data) [] with
      | .error e => .error e
      | .ok indices =>
        .ok (sortedSet ((indices.filter
          (fun idx => decide (0 ≤ idx ∧ idx < (total_pages : Int)))).map
            Int.toNat))

/-! ## `flows.py : build_deck_flow`

The flow's external effects are supplied by an `Env` oracle:
file-existence checks, the renderer, the Vertex refine call, and the
order in which concurrent refine tasks deliver their outcome over the
memory-object stream (`arrival`). `manifest0` is the prior contents of
`manifest.jsonl` (the `ManifestWriter` opens it in append mode). -/
structure Env where
  inputExists : Bool
  totalPages : Nat
  rawExists : Nat → Bool
  enhancedExists : Nat → Bool
  /-- result of `render_page_task`: duration on success, the exception
  message on failure. -/
  renderResult : Nat → Except String Nat
  /-- result of the guarded `refine_page_task` call inside `refine_one`:
  measured duration on success, `(str(exc), measured duration)` on
  failure. -/
  refineResult : Nat → Except (String × Nat) Nat
  /-- completion order of the concurrent refine tasks: the page indices
  in the order their outcomes arrive on the stream. -/
  arrival : List Nat
  /-- prior contents of `manifest.jsonl`. -/
  manifest0 : List ManifestEntry

/-- The render-stage body for one page (`flows.py` lines 181-219):
skip if the raw file exists, else invoke the renderer and record
`rendered` or `failed`. -/
def renderOutcomeOf (env : Env) (i : Nat) : RenderOutcome :=
  if env.rawExists i then
    { page_index := i, raw_path := .raw i, duration_ms := 0,
      status := "skipped_render" }
  else
    match env.renderResult i with
    | .ok d =>
      { page_index := i, raw_path := .raw i, duration_ms := d,
        status := "rendered" }
    | .error _ =>
      { page_index := i, raw_path := .raw i, duration_ms := 0,
        status := "failed" }

/-- The `render_failures[page_index] = str(exc)` entry the loop records
for page `i`, if any. -/
def renderFailureOf (env : Env) (i : Nat) : Option (Nat × String) :=
  if env.rawExists i then none
  else
    match env.renderResult i with
    | .ok _ => none
    | .error e => some (i, e)

/-- `flows.py : refine_one` (lines 261-305): idempotent skip when the
enhanced file exists, otherwise the rate-limited, Prefect-retried
`refine_page_task` call whose success or final exception the
`try`/`except` turns into a `RefineOutcome`. -/
def refineOne (env : Env) (i : Nat) : RefineOutcome :=
  if env.enhancedExists i then
    { page_index := i, enhanced_path := some (.enhanced i),
      output_path := .enhanced i, duration_ms := 0,
      status := "skipped_refine", error := none }
  else
    match env.refineResult i with
    | .ok d =>
      { page_index := i, enhanced_path := some (.enhanced i),
        output_path := .enhanced i, duration_ms := d,
        status := "refined", error := none }
    | .error (e, d) =>
      { page_index := i, enhanced_path := none, output_path := .raw i,
        duration_ms := d, status := "failed", error := some e }

/-- Python `dict.get` on the `render_failures` mapping, represented as
the association list of `(page_index, error)` pairs in insertion order.
The flow assigns each page index at most once, so first-match lookup
agrees with dict semantics. -/
def pyDictGet (render_failures : List (Nat × String)) (i : Nat) :
    Option String :=
  match render_failures with
  | [] => none
  | (k, v) :: rest => if i = k then some v else pyDictGet rest i

/-- The `skip_refine` branch (`flows.py` lines 226-249): synthesize a
`failed` outcome for render-failed pages and `skip_refine` otherwise. -/
def skipRefineOutcome (render_failures : List (Nat × String))
    (o : RenderOutcome) : RefineOutcome :=
  match pyDictGet render_failures o.page_index with
  | some e =>
    { page_index := o.page_index, enhanced_path := none,
      output_path := o.raw_path, duration_ms := 0, status := "failed",
      error := some e }
  | none =>
    { page_index := o.page_index, enhanced_path := none,
      output_path := o.raw_path, duration_ms := 0,
      status := "skip_refine", error := none }

/-- Python dict built by comprehension `{o.page_index: o for o in l}`:
on duplicate keys the last entry wins, so lookup searches the reversed
list. -/
def dictFind (l : List RefineOutcome) (i : Nat) : Option RefineOutcome :=
  l.reverse.find? (fun o => o.page_index == i)

/-- Same for the render map. -/
def dictFindRender (l : List RenderOutcome) (i : Nat) :
    Option RenderOutcome :=
  l.reverse.find? (fun o => o.page_index == i)

/-- The aggregation loop body (`flows.py` lines 325-354) for one page:
the manifest entry written, and the image path appended to the assembly
list when the page did not fail. -/
def aggregateOne (render_failures : List (Nat × String))
    (render_outcomes : List RenderOutcome)
    (refine_outcomes : List RefineOutcome) (i : Nat) :
    ManifestEntry × Option FPath :=
  let ro := (dictFindRender render_outcomes i).getD
    { page_index := i, raw_path := .raw i, duration_ms := 0,
      status := "failed" }
  let fo :=
    match dictFind refine_outcomes i with
    | some o => o
    | none =>
      { page_index := i, enhanced_path := none,
        output_path := ro.raw_path, duration_ms := 0, status := "failed",
        error := some ((pyDictGet render_failures i).getD "Unknown error") }
  let status := fo.status
  let duration_ms := ro.duration_ms + fo.duration_ms
  -- Python `refine_outcome.error or render_failures.get(page_index)`:
  -- an empty string is falsy.
  let error :=
    match fo.error with
    | some e => if e = "" then pyDictGet render_failures i else some e
    | none => pyDictGet render_failures i
  (⟨i, ro.raw_path, fo.enhanced_path, status, duration_ms, error⟩,
   if status ≠ "failed" then some fo.output_path else none)

/-- The `if failure_pages: ... if not allowPartial: return FlowOutcome(...)
... return FlowOutcome(...)` tail of the flow (`flows.py` lines 365-371).
Both returns build the same value. -/
def finalOutcome (failure_pages : List Nat) (pptx_output : Option FPath)
    (allowPartial : Bool) : FlowOutcome :=
  if failure_pages ≠ [] ∧ allowPartial = false then
    { failures := failure_pages, pptx_path := pptx_output }
  else
    { failures := failure_pages, pptx_path := pptx_output }

/-- Everything `build_deck_flow` produces, with instrumentation for the
external calls it makes: the pages on which `render_page_task` /
`refine_page_task` were invoked and whether `assemble_ppt_task` ran. -/
structure FlowResult where
  outcome : FlowOutcome
  /-- final contents of `manifest.jsonl` (prior entries ++ appended). -/
  manifest : List ManifestEntry
  image_paths : List FPath
  renderCalls : List Nat
  refineCalls : List Nat
  assembleCalled : Bool
  deriving DecidableEq, Repr

/-- `render_failures` after the render loop: the `(page_index, str(exc))`
pairs in page order. -/
def renderFailuresOf (env : Env) (page_indices : List Nat) :
    List (Nat × String) :=
  page_indices.filterMap (renderFailureOf env)

/-- Pages handed to `tg.start_soon(refine_one, ...)`: render failures
are skipped by the `continue` (`flows.py` lines 308-311). -/
def launchedPages (env : Env) (page_indices : List Nat) : List Nat :=
  page_indices.filter
    (fun i => (pyDictGet (renderFailuresOf env page_indices) i).isNone)

/-- The refine outcomes drained from the memory-object stream, in
completion order (`Env.arrival`); the stream only ever carries outcomes
of launched tasks (`flows.py` lines 313-316). -/
def collectedOutcomes (env : Env) (page_indices : List Nat) :
    List RefineOutcome :=
  env.arrival.filterMap
    (fun i =>
      if (launchedPages env page_indices).contains i then
        some (refineOne env i)
      else none)

/-- The `refine_outcomes` list: the `skip_refine` loop or the collected
concurrent outcomes. -/
def refineOutcomesOf (env : Env) (skip_refine : Bool)
    (page_indices : List Nat) : List RefineOutcome :=
  if skip_refine then
    (page_indices.map (renderOutcomeOf env)).map
      (skipRefineOutcome (renderFailuresOf env page_indices))
  else
    collectedOutcomes env page_indices

/-- The `failures` list: render-failure keys, extended in the concurrent
branch with the pages of `failed` refine outcomes in completion order
(`flows.py` lines 224, 318-320). -/
def failuresOf (env : Env) (skip_refine : Bool)
    (page_indices : List Nat) : List Nat :=
  (renderFailuresOf env page_indices).map (·.1) ++
    (if skip_refine then []
     else
       ((refineOutcomesOf env skip_refine page_indices).filter
         (fun o => o.status == "failed")).map (·.page_index))

/-- The aggregation loop (`flows.py` lines 324-354): one manifest entry
and optional image path per selected page, in page order. -/
def aggregatedOf (env : Env) (skip_refine : Bool)
    (page_indices : List Nat) : List (ManifestEntry × Option FPath) :=
  page_indices.map
    (aggregateOne (renderFailuresOf env page_indices)
      (page_indices.map (renderOutcomeOf env))
      (refineOutcomesOf env skip_refine page_indices))

/-- The manifest entries appended by this run. -/
def entriesOf (env : Env) (skip_refine : Bool)
    (page_indices : List Nat) : List ManifestEntry :=
  (aggregatedOf env skip_refine page_indices).map (·.1)

/-- The ordered image-path list fed to assembly. -/
def imagePathsOf (env : Env) (skip_refine : Bool)
    (page_indices : List Nat) : List FPath :=
  (aggregatedOf env skip_refine page_indices).filterMap (·.2)

/-- The body of `build_deck_flow` after its fail-fast checks, for a
resolved selection `page_indices`. -/
def flowCore (env : Env) (skip_refine : Bool) (allowPartial : Bool)
    (page_indices : List Nat) : FlowResult :=
  let image_paths := imagePathsOf env skip_refine page_indices
  let pptx_output : Option FPath :=
    if image_paths = [] then none else some .deck
  let failure_pages :=
    sortedSet ((failuresOf env skip_refine page_indices).map (· + 1))
  { outcome := finalOutcome failure_pages pptx_output allowPartial
    manifest := env.manifest0 ++ entriesOf env skip_refine page_indices
    image_paths := image_paths
    renderCalls := page_indices.filter (fun i => env.rawExists i = false)
    refineCalls :=
      if skip_refine then []
      else
        (launchedPages env page_indices).filter
          (fun i => env.enhancedExists i = false)
    assembleCalled := !(image_paths.isEmpty) }

/-- `flows.py : build_deck_flow`. Raised exceptions (`FileNotFoundError`,
`ValueError` from `parse_pages` or the empty-selection check) are
modelled as `.error`. -/
def build_deck_flow (env : Env) (skip_refine : Bool)
    (pages : Option String) (allowPartial : Bool) :
    Except String FlowResult :=
  if env.inputExists = false then
    .error "Input PDF not found"
  else
    match parse_pages pages env.totalPages with
    | .error e => .error e
    | .ok page_indices =>
      if page_indices = [] then
        .error "No pages selected for processing."
      else
        .ok (flowCore env skip_refine allowPartial page_indices)

/-! ## The refine retry loop

`tasks.py : refine_page_task` wraps the refiner call in a
`for attempt in range(max_attempts)` loop; `refine.py` supplies
`is_retryable` and `backoff_sleep`.  The result of each attempt of
`rate_limit_wait` + `refiner.refine` is supplied by an oracle; sleep
durations are exact rationals. -/

/-- What one attempt of the loop body does: succeed (with the measured
duration), raise `GeminiAPIError` (with its status code), or raise any
other exception (e.g. the `RuntimeError`s for malformed responses). -/
inductive AttemptResult where
  | success (duration_ms : Nat)
  | geminiError (status_code : Int) (message : String)
  | otherError (message : String)
  deriving DecidableEq, Repr

/-- The exception a failed `refine_page_task` propagates to its caller. -/
inductive RefineErr where
  | gemini (status_code : Int) (message : String)
  | other (message : String)
  deriving DecidableEq, Repr

/-- The exception carried by a failing attempt, if it failed. -/
def toErr : AttemptResult → Option RefineErr
  | .success _ => none
  | .geminiError sc m => some (.gemini sc m)
  | .otherError m => some (.other m)

/-- `refine.py : is_retryable`: HTTP 429 or any 5xx status. -/
def is_retryable (status_code : Int) : Bool :=
  status_code == 429 ||
    (decide (500 ≤ status_code) && decide (status_code ≤ 599))

/-- Whether the loop body retries after this attempt result (given
another attempt remains): a retryable `GeminiAPIError`, or any other
exception. -/
def wasRetried : AttemptResult → Bool
  | .success _ => false
  | .geminiError sc _ => is_retryable sc
  | .otherError _ => true

/-- `refine.py : backoff_sleep`: the duration slept,
`1.5 ** attempt + 0.1 * attempt` seconds, as an exact rational. -/
def backoff_sleep (attempt : Nat) : ℚ :=
  (3 / 2 : ℚ) ^ attempt + (attempt : ℚ) / 10

deriving instance DecidableEq for Except

/-- What a run of the retry loop did: the value returned or exception
raised, how many attempts ran, and the backoff sleeps performed between
attempts, in order. -/
structure RetryTrace where
  result : Except RefineErr Nat
  attemptsMade : Nat
  sleeps : List ℚ
  deriving DecidableEq, Repr

/-- The `for attempt in range(max_attempts)` loop of
`tasks.py : refine_page_task`, lines 65-85, with `remaining` the number
of iterations the `range` still has.  On a `GeminiAPIError` the loop
retries only if another attempt remains and the status is retryable; on
any other exception it retries whenever another attempt remains; each
retry first sleeps `backoff_sleep(attempt + 1)`.  Falling out of the
loop (only possible when `range` is empty) hits the trailing
`return enhanced_path, duration_ms`. -/
def refineLoopGo (oracle : Nat → AttemptResult) (max_attempts : Nat) :
    Nat → Nat → RetryTrace
  | 0, attempt => { result := .ok 0, attemptsMade := attempt, sleeps := [] }
  | remaining + 1, attempt =>
    match oracle attempt with
    | .success d =>
      { result := .ok d, attemptsMade := attempt + 1, sleeps := [] }
    | .geminiError sc m =>
      if attempt < max_attempts - 1 ∧ is_retryable sc = true then
        let t := refineLoopGo oracle max_attempts remaining (attempt + 1)
        { t with sleeps := backoff_sleep (attempt + 1) :: t.sleeps }
      else
        { result := .error (.gemini sc m), attemptsMade := attempt + 1,
          sleeps := [] }
    | .otherError m =>
      if attempt < max_attempts - 1 then
        let t := refineLoopGo oracle max_attempts remaining (attempt + 1)
        { t with sleeps := backoff_sleep (attempt + 1) :: t.sleeps }
      else
        { result := .error (.other m), attemptsMade := attempt + 1,
          sleeps := [] }

/-- `tasks.py : refine_page_task` retry loop, run from attempt 0.
`max_attempts` defaults to 5 in the source. -/
def refine_page_loop (oracle : Nat → AttemptResult)
    (max_attempts : Nat) : RetryTrace :=
  refineLoopGo oracle max_attempts max_attempts 0

/-! ## Concrete environments used as witnesses and counterexamples -/

/-- A one-page document whose single page fails to render: nothing to
assemble. -/
def envNoImages : Env where
  inputExists := true
  totalPages := 1
  rawExists := fun _ => false
  enhancedExists := fun _ => false
  renderResult := fun _ => .error "boom"
  refineResult := fun _ => .error ("never", 0)
  arrival := []
  manifest0 := []

/-- A one-page document whose raw and enhanced outputs both already
exist (a resumed page). -/
def envResumedPage : Env where
  inputExists := true
  totalPages := 1
  rawExists := fun _ => true
  enhancedExists := fun _ => true
  renderResult := fun _ => .error "unused"
  refineResult := fun _ => .error ("unused", 0)
  arrival := [0]
  manifest0 := []

/-- A prior manifest entry, to observe append-only behaviour. -/
def priorEntry : ManifestEntry :=
  { page_index := 0, raw_path := .raw 0,
    enhanced_path := some (.enhanced 0), status := "refined",
    duration_ms := 7, error := none }

/-- A two-page document after a completed run: every output file exists,
the manifest holds a prior entry, and the second run's refine outcomes
arrive out of page order. -/
def envSecondRun : Env where
  inputExists := true
  totalPages := 2
  rawExists := fun _ => true
  enhancedExists := fun _ => true
  renderResult := fun _ => .error "unused"
  refineResult := fun _ => .error ("unused", 0)
  arrival := [1, 0]
  manifest0 := [priorEntry]

/-- A three-page document where page 1 fails to render, the others
refine fine, and completion order is reversed. -/
def envMidFailure : Env where
  inputExists := true
  totalPages := 3
  rawExists := fun _ => false
  enhancedExists := fun _ => false
  renderResult := fun i => if i = 1 then .error "render broke" else .ok 5
  refineResult := fun _ => .ok 9
  arrival := [2, 0]
  manifest0 := []

/-- An oracle that always raises the malformed-response `RuntimeError`
of `refine.py : GeminiNanoBananaRefiner.refine`. -/
def malformedOracle : Nat → AttemptResult :=
  fun _ => .otherError "Gemini API response missing parts."

/-- An oracle that raises a 500 `GeminiAPIError` twice and then
succeeds. -/
def flakyOracle : Nat → AttemptResult :=
  fun k => if k < 2 then .geminiError 500 "server error" else .success 10

/-- An oracle whose first attempt raises a non-retryable (HTTP 400)
`GeminiAPIError`. -/
def fatalOracle : Nat → AttemptResult :=
  fun _ => .geminiError 400 "bad request"

/-- What `build_deck_flow` produces on `envNoImages` (render-only run). -/
def resultNoImages : FlowResult :=
  { outcome := { failures := [1], pptx_path := none }
    manifest := [{ page_index := 0, raw_path := .raw 0,
                   enhanced_path := none, status := "failed",
                   duration_ms := 0, error := some "boom" }]
    image_paths := []
    renderCalls := [0]
    refineCalls := []
    assembleCalled := false }

/-- What `build_deck_flow` produces on `envResumedPage`. -/
def resultResumedPage : FlowResult :=
  { outcome := { failures := [], pptx_path := some .deck }
    manifest := [{ page_index := 0, raw_path := .raw 0,
                   enhanced_path := some (.enhanced 0),
                   status := "skipped_refine", duration_ms := 0,
                   error := none }]
    image_paths := [.enhanced 0]
    renderCalls := []
    refineCalls := []
    assembleCalled := true }

/-- What `build_deck_flow` produces on `envSecondRun`. -/
def resultSecondRun : FlowResult :=
  { outcome := { failures := [], pptx_path := some .deck }
    manifest := [priorEntry,
      { page_index := 0, raw_path := .raw 0,
        enhanced_path := some (.enhanced 0), status := "skipped_refine",
        duration_ms := 0, error := none },
      { page_index := 1, raw_path := .raw 1,
        enhanced_path := some (.enhanced 1), status := "skipped_refine",
        duration_ms := 0, error := none }]
    image_paths := [.enhanced 0, .enhanced 1]
    renderCalls := []
    refineCalls := []
    assembleCalled := true }

/-- What `build_deck_flow` produces on `envMidFailure`. -/
def resultMidFailure : FlowResult :=
  { outcome := { failures := [2], pptx_path := some .deck }
    manifest := [
      { page_index := 0, raw_path := .raw 0,
        enhanced_path := some (.enhanced 0), status := "refined",
        duration_ms := 14, error := none },
      { page_index := 1, raw_path := .raw 1, enhanced_path := none,
        status := "failed", duration_ms := 0,
        error := some "render broke" },
      { page_index := 2, raw_path := .raw 2,
        enhanced_path := some (.enhanced 2), status := "refined",
        duration_ms := 14, error := none }]
    image_paths := [.enhanced 0, .enhanced 2]
    renderCalls := [0, 1, 2]
    refineCalls := [0, 2]
    assembleCalled := true }

/-! ## Lemmas about `parse_pages` -/

theorem sortedSet_pairwise (l : List Nat) :
    (sortedSet l).Pairwise (· < ·) := by
  have hs : (sortedSet l).Sorted (· ≤ ·) := List.sorted_insertionSort _ _
  have hperm : (sortedSet l).Perm l.dedup := List.perm_insertionSort _ _
  have hnd : (sortedSet l).Nodup := hperm.nodup_iff.mpr (List.nodup_dedup l)
  exact (hs.and hnd).imp (fun h => lt_of_le_of_ne h.1 h.2)

theorem sortedSet_mem (l : List Nat) (x : Nat) :
    x ∈ sortedSet l ↔ x ∈ l := by
  unfold sortedSet
  rw [(List.perm_insertionSort _ _).mem_iff, List.mem_dedup]

theorem parse_pages_sorted (sel : Option String) (total : Nat)
    (l : List Nat) (h : parse_pages sel total = .ok l) :
    l.Pairwise (· < ·) ∧ ∀ x ∈ l, x < total := by
  rcases sel with _ | s
  · simp only [parse_pages, Except.ok.injEq] at h
    subst h
    exact ⟨List.pairwise_lt_range total, fun x hx => List.mem_range.mp hx⟩
  · simp only [parse_pages] at h
    split at h
    · simp only [Except.ok.injEq] at h
      subst h
      exact ⟨List.pairwise_lt_range total, fun x hx => List.mem_range.mp hx⟩
    · split at h
      · exact absurd h (by simp)
      · simp only [Except.ok.injEq] at h
        subst h
        refine ⟨sortedSet_pairwise _, fun x hx => ?_⟩
        rw [sortedSet_mem] at hx
        rcases List.mem_map.mp hx with ⟨y, hy, rfl⟩
        have := of_decide_eq_true (List.mem_filter.mp hy).2
        omega

theorem parse_pages_nodup (sel : Option String) (total : Nat)
    (l : List Nat) (h : parse_pages sel total = .ok l) : l.Nodup :=
  ((parse_pages_sorted sel total l h).1).imp (fun hlt => Nat.ne_of_lt hlt)

theorem partsFold_error (parts : List (List Char)) (part : List Char)
    (e : String) (hmem : part ∈ parts)
    (herr : process_part part = .error e) :
    ∀ acc, ∃ e2, partsFold parts acc = .error e2 := by
  induction parts with
  | nil => cases hmem
  | cons q rest ih =>
    intro acc
    rcases List.mem_cons.mp hmem with rfl | hrest
    · exact ⟨e, by simp [partsFold, herr]⟩
    · unfold partsFold
      rcases hq : process_part q with e3 | c
      · exact ⟨e3, rfl⟩
      · exact ih hrest (acc ++ c)

theorem process_part_singleton_nonpositive (part : List Char) (k : Int)
    (hne : trimChars part ≠ [])
    (hnd : (trimChars part).contains '-' = false)
    (hk : pyIntChars (trimChars part) = .ok k) (hk0 : k ≤ 0) :
    process_part part = .error "Page numbers must be positive." := by
  unfold process_part
  rw [if_neg hne, if_neg (by simpa using hnd), hk]
  simp [hk0]

theorem process_part_range_nonpositive (part : List Char) (a b : Int)
    (hne : trimChars part ≠ [])
    (hnd : (trimChars part).contains '-' = true)
    (ha : pyIntChars ((splitOnChar '-' (trimChars part)).headD []) = .ok a)
    (hb : pyIntChars
      (joinWithChar '-' (splitOnChar '-' (trimChars part)).tail) = .ok b)
    (hab : a ≤ 0 ∨ b ≤ 0) :
    process_part part = .error "Page numbers must be positive." := by
  unfold process_part
  rw [if_neg hne, if_pos (by simpa using hnd)]
  dsimp only
  rw [ha, hb]
  simp [hab]

theorem parse_pages_part_error (s : String) (total : Nat)
    (part : List Char) (e : String)
    (hmem : part ∈ splitOnChar ',' s.data)
    (herr : process_part part = .error e) :
    ∃ e2, parse_pages (some s) total = .error e2 := by
  by_cases hd : s.data = []
  · rw [hd] at hmem
    have : part = [] := by simpa [splitOnChar] using hmem
    rw [this] at herr
    simp [process_part, trimChars] at herr
  · rcases partsFold_error _ part e hmem herr [] with ⟨e2, he2⟩
    exact ⟨e2, by simp [parse_pages, hd, he2]⟩

/-! ## Lemmas about the flow pieces -/

theorem renderOutcomeOf_page (env : Env) (i : Nat) :
    (renderOutcomeOf env i).page_index = i := by
  unfold renderOutcomeOf
  split
  · rfl
  · split <;> rfl

theorem renderOutcomeOf_raw (env : Env) (i : Nat) :
    (renderOutcomeOf env i).raw_path = .raw i := by
  unfold renderOutcomeOf
  split
  · rfl
  · split <;> rfl

theorem renderFailureOf_key (env : Env) (i : Nat) (pr : Nat × String)
    (h : renderFailureOf env i = some pr) : pr.1 = i := by
  unfold renderFailureOf at h
  split at h
  · cases h
  · split at h
    · cases h
    · cases h
      rfl

theorem pyDictGet_renderFailures_notmem (env : Env) (pis : List Nat)
    (i : Nat) (hi : i ∉ pis) :
    pyDictGet (renderFailuresOf env pis) i = none := by
  induction pis with
  | nil => rfl
  | cons a rest ih =>
    have hia : i ≠ a := fun h => hi (h ▸ List.mem_cons_self a rest)
    have hir : i ∉ rest := fun h => hi (List.mem_cons_of_mem a h)
    unfold renderFailuresOf at ih ⊢
    rw [List.filterMap_cons]
    rcases hf : renderFailureOf env a with _ | pr
    · exact ih hir
    · obtain ⟨k, v⟩ := pr
      have hk : k = a := renderFailureOf_key env a (k, v) hf
      subst hk
      simp [pyDictGet, hia, ih hir]

theorem pyDictGet_renderFailures_mem (env : Env) (pis : List Nat)
    (i : Nat) (hnd : pis.Nodup) (hi : i ∈ pis) :
    pyDictGet (renderFailuresOf env pis) i
      = (renderFailureOf env i).map (·.2) := by
  induction pis with
  | nil => cases hi
  | cons a rest ih =>
    have hnd2 := List.nodup_cons.mp hnd
    unfold renderFailuresOf at ih ⊢
    rw [List.filterMap_cons]
    rcases List.mem_cons.mp hi with rfl | hr
    · rcases hf : renderFailureOf env i with _ | pr
      · have := pyDictGet_renderFailures_notmem env rest i hnd2.1
        unfold renderFailuresOf at this
        simp [this, hf]
      · obtain ⟨k, v⟩ := pr
        have hk : k = i := renderFailureOf_key env i (k, v) hf
        subst hk
        simp [pyDictGet, hf]
    · have hia : i ≠ a := fun h => hnd2.1 (h ▸ hr)
      rcases hf : renderFailureOf env a with _ | pr
      · exact ih hnd2.2 hr
      · obtain ⟨k, v⟩ := pr
        have hk : k = a := renderFailureOf_key env a (k, v) hf
        subst hk
        simp only [pyDictGet, if_neg hia]
        exact ih hnd2.2 hr

theorem find?_eq_some_of_unique {α : Type} (l : List α) (p : α → Bool)
    (target : α) (huniq : ∀ o ∈ l, p o = true → o = target)
    (hmem : target ∈ l) (hp : p target = true) :
    l.find? p = some target := by
  rcases hf : l.find? p with _ | o2
  · have := List.find?_eq_none.mp hf target hmem
    simp [hp] at this
  · rw [huniq o2 (List.mem_of_find?_eq_some hf) (List.find?_some hf)]

theorem find?_eq_none_of_nomatch {α : Type} (l : List α) (p : α → Bool)
    (h : ∀ o ∈ l, p o = false) : l.find? p = none := by
  apply List.find?_eq_none.mpr
  intro x hx
  simp [h x hx]

theorem dictFindRender_some_mem (l : List RenderOutcome) (i : Nat)
    (o : RenderOutcome) (h : dictFindRender l i = some o) :
    o ∈ l ∧ o.page_index = i := by
  unfold dictFindRender at h
  exact ⟨List.mem_reverse.mp (List.mem_of_find?_eq_some h),
    by simpa using List.find?_some h⟩

theorem dictFind_some_mem (l : List RefineOutcome) (i : Nat)
    (o : RefineOutcome) (h : dictFind l i = some o) :
    o ∈ l ∧ o.page_index = i := by
  unfold dictFind at h
  exact ⟨List.mem_reverse.mp (List.mem_of_find?_eq_some h),
    by simpa using List.find?_some h⟩

theorem dictFindRender_map (env : Env) (pis : List Nat) (i : Nat)
    (hi : i ∈ pis) :
    dictFindRender (pis.map (renderOutcomeOf env)) i
      = some (renderOutcomeOf env i) := by
  unfold dictFindRender
  apply find?_eq_some_of_unique
  · intro o ho hpo
    rcases List.mem_map.mp (List.mem_reverse.mp ho) with ⟨j, _, rfl⟩
    have hji : j = i := by simpa [renderOutcomeOf_page] using hpo
    rw [hji]
  · exact List.mem_reverse.mpr (List.mem_map_of_mem _ hi)
  · simp [renderOutcomeOf_page]

theorem refineOne_page (env : Env) (i : Nat) :
    (refineOne env i).page_index = i := by
  unfold refineOne
  split
  · rfl
  · split <;> rfl

theorem refineOne_output (env : Env) (j : Nat) :
    (refineOne env j).output_path = FPath.raw j ∨
      (refineOne env j).output_path = FPath.enhanced j := by
  unfold refineOne
  split
  · exact Or.inr rfl
  · split
    · exact Or.inr rfl
    · exact Or.inl rfl

theorem skipRefineOutcome_page (fails : List (Nat × String))
    (o : RenderOutcome) :
    (skipRefineOutcome fails o).page_index = o.page_index := by
  unfold skipRefineOutcome
  split <;> rfl

theorem skipRefineOutcome_output (fails : List (Nat × String))
    (o : RenderOutcome) :
    (skipRefineOutcome fails o).output_path = o.raw_path := by
  unfold skipRefineOutcome
  split <;> rfl

theorem mem_collectedOutcomes (env : Env) (pis : List Nat)
    (o : RefineOutcome) (ho : o ∈ collectedOutcomes env pis) :
    ∃ j ∈ launchedPages env pis, o = refineOne env j := by
  unfold collectedOutcomes at ho
  rcases List.mem_filterMap.mp ho with ⟨j, hj, hmk⟩
  by_cases hc : (launchedPages env pis).contains j = true
  · rw [if_pos hc] at hmk
    cases hmk
    exact ⟨j, by simpa using hc, rfl⟩
  · rw [if_neg hc] at hmk
    cases hmk

theorem dictFind_collected_some (env : Env) (pis : List Nat) (i : Nat)
    (hl : i ∈ launchedPages env pis) (ha : i ∈ env.arrival) :
    dictFind (collectedOutcomes env pis) i = some (refineOne env i) := by
  unfold dictFind
  apply find?_eq_some_of_unique
  · intro o ho hpo
    rcases mem_collectedOutcomes env pis o (List.mem_reverse.mp ho) with
      ⟨j, _, rfl⟩
    have hji : j = i := by simpa [refineOne_page] using hpo
    rw [hji]
  · apply List.mem_reverse.mpr
    unfold collectedOutcomes
    apply List.mem_filterMap.mpr
    exact ⟨i, ha, by simp [hl]⟩
  · simp [refineOne_page]

theorem dictFind_collected_none (env : Env) (pis : List Nat) (i : Nat)
    (hl : i ∉ launchedPages env pis) :
    dictFind (collectedOutcomes env pis) i = none := by
  unfold dictFind
  apply find?_eq_none_of_nomatch
  intro o ho
  rcases mem_collectedOutcomes env pis o (List.mem_reverse.mp ho) with
    ⟨j, hj, rfl⟩
  have hji : j ≠ i := fun h => hl (h ▸ hj)
  simp [refineOne_page, hji]

theorem dictFind_skip (env : Env) (pis : List Nat) (i : Nat)
    (hi : i ∈ pis) :
    dictFind ((pis.map (renderOutcomeOf env)).map
        (skipRefineOutcome (renderFailuresOf env pis))) i
      = some (skipRefineOutcome (renderFailuresOf env pis)
          (renderOutcomeOf env i)) := by
  unfold dictFind
  apply find?_eq_some_of_unique
  · intro o ho hpo
    rcases List.mem_map.mp (List.mem_reverse.mp ho) with ⟨ro, hro, rfl⟩
    rcases List.mem_map.mp hro with ⟨j, _, rfl⟩
    have hji : j = i := by
      simpa [skipRefineOutcome_page, renderOutcomeOf_page] using hpo
    rw [hji]
  · exact List.mem_reverse.mpr
      (List.mem_map_of_mem _ (List.mem_map_of_mem _ hi))
  · simp [skipRefineOutcome_page, renderOutcomeOf_page]

theorem renderOutcomes_raw (env : Env) (pis : List Nat) :
    ∀ o ∈ pis.map (renderOutcomeOf env),
      o.raw_path = FPath.raw o.page_index := by
  intro o ho
  rcases List.mem_map.mp ho with ⟨j, _, rfl⟩
  rw [renderOutcomeOf_raw, renderOutcomeOf_page]

theorem refineOutcomes_output (env : Env) (sr : Bool) (pis : List Nat) :
    ∀ o ∈ refineOutcomesOf env sr pis,
      o.output_path = FPath.raw o.page_index ∨
        o.output_path = FPath.enhanced o.page_index := by
  intro o ho
  unfold refineOutcomesOf at ho
  split at ho
  · rcases List.mem_map.mp ho with ⟨ro, hro, rfl⟩
    rcases List.mem_map.mp hro with ⟨j, _, rfl⟩
    rw [skipRefineOutcome_output, skipRefineOutcome_page,
      renderOutcomeOf_raw, renderOutcomeOf_page]
    exact Or.inl rfl
  · rcases mem_collectedOutcomes env pis o ho with ⟨j, _, rfl⟩
    rw [refineOne_page]
    exact refineOne_output env j

theorem aggregateOne_image_page (fails : List (Nat × String))
    (rl : List RenderOutcome) (fl : List RefineOutcome) (i : Nat)
    (p : FPath)
    (hfl : ∀ o ∈ fl, o.output_path = FPath.raw o.page_index ∨
      o.output_path = FPath.enhanced o.page_index)
    (h : (aggregateOne fails rl fl i).2 = some p) : p.page = i := by
  unfold aggregateOne at h
  rcases hfo : dictFind fl i with _ | o
  · rw [hfo] at h
    dsimp only at h
    split at h
    · rename_i hcond
      exact absurd rfl hcond
    · cases h
  · rw [hfo] at h
    dsimp only at h
    obtain ⟨hmem, hpage⟩ := dictFind_some_mem fl i o hfo
    split at h
    · cases h
      rcases hfl o hmem with hout | hout <;> rw [hout, hpage] <;> rfl
    · cases h

theorem entriesOf_pages (env : Env) (sr : Bool) (pis : List Nat) :
    (entriesOf env sr pis).map (·.page_index) = pis := by
  unfold entriesOf aggregatedOf
  rw [List.map_map, List.map_map]
  conv_rhs => rw [← List.map_id pis]
  apply List.map_congr_left
  intro i _
  rfl

theorem sublist_filterMap_page (l : List Nat) (g : Nat → Option FPath)
    (hg : ∀ i p, g i = some p → p.page = i) :
    ((l.filterMap g).map FPath.page).Sublist l := by
  induction l with
  | nil => simp
  | cons a rest ih =>
    rw [List.filterMap_cons]
    rcases hga : g a with _ | p
    · exact ih.cons a
    · rw [List.map_cons, hg a p hga]
      exact ih.cons₂ a

theorem imagePathsOf_eq_filterMap (env : Env) (sr : Bool)
    (pis : List Nat) :
    imagePathsOf env sr pis = pis.filterMap
      (fun i => (aggregateOne (renderFailuresOf env pis)
        (pis.map (renderOutcomeOf env))
        (refineOutcomesOf env sr pis) i).2) := by
  unfold imagePathsOf aggregatedOf
  rw [List.filterMap_map]
  rfl

theorem imagePaths_pairwise (env : Env) (sr : Bool) (pis : List Nat)
    (h : pis.Pairwise (· < ·)) :
    ((imagePathsOf env sr pis).map FPath.page).Pairwise (· < ·) := by
  rw [imagePathsOf_eq_filterMap]
  refine List.Pairwise.sublist (sublist_filterMap_page pis _ ?_) h
  intro i p hp
  exact aggregateOne_image_page _ _ _ i p
    (refineOutcomes_output env sr pis) hp

theorem finalOutcome_eq (fp : List Nat) (p : Option FPath) (ap : Bool) :
    finalOutcome fp p ap = ⟨fp, p⟩ := by
  unfold finalOutcome
  split <;> rfl

theorem build_deck_flow_ok (env : Env) (sr : Bool) (pg : Option String)
    (ap : Bool) (r : FlowResult)
    (h : build_deck_flow env sr pg ap = .ok r) :
    env.inputExists = true ∧
      ∃ pis, parse_pages pg env.totalPages = .ok pis ∧ pis ≠ [] ∧
        r = flowCore env sr ap pis := by
  unfold build_deck_flow at h
  split at h
  · cases h
  · rename_i hin
    refine ⟨by simpa using hin, ?_⟩
    split at h
    · cases h
    · rename_i pis hp
      split at h
      · cases h
      · rename_i hne
        exact ⟨pis, hp, hne, (Except.ok.inj h).symm⟩

/-! ## Lemmas about the retry loop -/

theorem refineLoopGo_attempts_le (oracle : Nat → AttemptResult)
    (max_attempts : Nat) :
    ∀ r a, a ≤ (refineLoopGo oracle max_attempts r a).attemptsMade ∧
      (refineLoopGo oracle max_attempts r a).attemptsMade ≤ a + r := by
  intro r
  induction r with
  | zero =>
    intro a
    constructor <;> simp [refineLoopGo]
  | succ n ih =>
    intro a
    cases horc : oracle a with
    | success d =>
      simp only [refineLoopGo, horc]
      omega
    | geminiError sc m =>
      simp only [refineLoopGo, horc]
      split
      · have := ih (a + 1)
        dsimp only
        omega
      · dsimp only
        omega
    | otherError m =>
      simp only [refineLoopGo, horc]
      split
      · have := ih (a + 1)
        dsimp only
        omega
      · dsimp only
        omega

theorem refineLoopGo_attempts_pos (oracle : Nat → AttemptResult)
    (max_attempts r a : Nat) (hr : 1 ≤ r) :
    a + 1 ≤ (refineLoopGo oracle max_attempts r a).attemptsMade := by
  rcases r with _ | n
  · omega
  · cases horc : oracle a with
    | success d =>
      simp only [refineLoopGo, horc]
      omega
    | geminiError sc m =>
      simp only [refineLoopGo, horc]
      split
      · have := (refineLoopGo_attempts_le oracle max_attempts n (a + 1)).1
        dsimp only
        omega
      · dsimp only
        omega
    | otherError m =>
      simp only [refineLoopGo, horc]
      split
      · have := (refineLoopGo_attempts_le oracle max_attempts n (a + 1)).1
        dsimp only
        omega
      · dsimp only
        omega

theorem refineLoopGo_sleeps (oracle : Nat → AttemptResult)
    (max_attempts : Nat) :
    ∀ r a, r + a = max_attempts →
      (refineLoopGo oracle max_attempts r a).sleeps
        = (List.range
            ((refineLoopGo oracle max_attempts r a).attemptsMade
              - 1 - a)).map
            (fun j => backoff_sleep (a + 1 + j)) := by
  intro r
  induction r with
  | zero =>
    intro a h
    simp only [refineLoopGo]
    rw [show a - 1 - a = 0 by omega]
    rfl
  | succ n ih =>
    intro a h
    cases horc : oracle a with
    | success d =>
      simp only [refineLoopGo, horc]
      rw [show a + 1 - 1 - a = 0 by omega]
      rfl
    | geminiError sc m =>
      simp only [refineLoopGo, horc]
      split
      · rename_i hcond
        dsimp only
        have hn1 : 1 ≤ n := by
          have := hcond.1
          omega
        have hge := refineLoopGo_attempts_pos oracle max_attempts n
          (a + 1) hn1
        have ht := ih (a + 1) (by omega)
        rw [show (refineLoopGo oracle max_attempts n (a + 1)).attemptsMade
              - 1 - a
            = ((refineLoopGo oracle max_attempts n (a + 1)).attemptsMade
              - 1 - (a + 1)) + 1 by omega,
          List.range_succ_eq_map, List.map_cons, List.map_map]
        congr 1
        rw [ht]
        apply List.map_congr_left
        intro j _
        simp only [Function.comp_apply]
        congr 1
        omega
      · dsimp only
        rw [show a + 1 - 1 - a = 0 by omega]
        rfl
    | otherError m =>
      simp only [refineLoopGo, horc]
      split
      · rename_i hcond
        dsimp only
        have hn1 : 1 ≤ n := by omega
        have hge := refineLoopGo_attempts_pos oracle max_attempts n
          (a + 1) hn1
        have ht := ih (a + 1) (by omega)
        rw [show (refineLoopGo oracle max_attempts n (a + 1)).attemptsMade
              - 1 - a
            = ((refineLoopGo oracle max_attempts n (a + 1)).attemptsMade
              - 1 - (a + 1)) + 1 by omega,
          List.range_succ_eq_map, List.map_cons, List.map_map]
        congr 1
        rw [ht]
        apply List.map_congr_left
        intro j _
        simp only [Function.comp_apply]
        congr 1
        omega
      · dsimp only
        rw [show a + 1 - 1 - a = 0 by omega]
        rfl

theorem refineLoopGo_result (oracle : Nat → AttemptResult)
    (max_attempts : Nat) :
    ∀ r a, r + a = max_attempts →
      (∀ e, (refineLoopGo oracle max_attempts r a).result = .error e →
        toErr (oracle
          ((refineLoopGo oracle max_attempts r a).attemptsMade - 1))
          = some e) ∧
      (∀ d, (refineLoopGo oracle max_attempts r a).result = .ok d →
        r = 0 ∨ oracle
          ((refineLoopGo oracle max_attempts r a).attemptsMade - 1)
          = .success d) := by
  intro r
  induction r with
  | zero =>
    intro a _
    constructor
    · intro e he
      exact absurd he (by simp [refineLoopGo])
    · intro d _
      exact Or.inl rfl
  | succ n ih =>
    intro a h
    cases horc : oracle a with
    | success d0 =>
      simp only [refineLoopGo, horc]
      constructor
      · intro e he
        cases he
      · intro d hd
        cases hd
        right
        rw [show a + 1 - 1 = a by omega, horc]
    | geminiError sc m =>
      simp only [refineLoopGo, horc]
      split
      · rename_i hcond
        have hc1 := hcond.1
        dsimp only
        obtain ⟨ihe, iho⟩ := ih (a + 1) (by omega)
        refine ⟨ihe, fun d hd => ?_⟩
        rcases iho d hd with h0 | hsucc
        · omega
        · exact Or.inr hsucc
      · constructor
        · intro e he
          cases he
          rw [show a + 1 - 1 = a by omega, horc]
          rfl
        · intro d hd
          cases hd
    | otherError m =>
      simp only [refineLoopGo, horc]
      split
      · rename_i hcond
        dsimp only
        obtain ⟨ihe, iho⟩ := ih (a + 1) (by omega)
        refine ⟨ihe, fun d hd => ?_⟩
        rcases iho d hd with h0 | hsucc
        · omega
        · exact Or.inr hsucc
      · constructor
        · intro e he
          cases he
          rw [show a + 1 - 1 = a by omega, horc]
          rfl
        · intro d hd
          cases hd

theorem refineLoopGo_wasRetried (oracle : Nat → AttemptResult)
    (max_attempts : Nat) :
    ∀ r a k, a ≤ k →
      k + 1 < (refineLoopGo oracle max_attempts r a).attemptsMade →
      wasRetried (oracle k) = true := by
  intro r
  induction r with
  | zero =>
    intro a k hak hk
    simp only [refineLoopGo] at hk
    omega
  | succ n ih =>
    intro a k hak hk
    cases horc : oracle a with
    | success d =>
      simp only [refineLoopGo, horc] at hk
      omega
    | geminiError sc m =>
      simp only [refineLoopGo, horc] at hk
      split at hk
      · rename_i hcond
        dsimp only at hk
        rcases Nat.eq_or_lt_of_le hak with rfl | hlt
        · rw [horc]
          simpa [wasRetried] using hcond.2
        · exact ih (a + 1) k hlt hk
      · dsimp only at hk
        omega
    | otherError m =>
      simp only [refineLoopGo, horc] at hk
      split at hk
      · dsimp only at hk
        rcases Nat.eq_or_lt_of_le hak with rfl | hlt
        · rw [horc]
          rfl
        · exact ih (a + 1) k hlt hk
      · dsimp only at hk
        omega

theorem refineLoop_fatal_immediate (oracle : Nat → AttemptResult)
    (max_attempts : Nat) (sc : Int) (m : String)
    (hmax : 0 < max_attempts) (h0 : oracle 0 = .geminiError sc m)
    (hnr : is_retryable sc = false) :
    refine_page_loop oracle max_attempts
      = { result := .error (.gemini sc m), attemptsMade := 1,
          sleeps := [] } := by
  unfold refine_page_loop
  rcases max_attempts with _ | n
  · omega
  · simp only [refineLoopGo, h0]
    rw [if_neg (by simp [hnr])]

theorem flowCore_manifest (env : Env) (sr ap : Bool) (pis : List Nat) :
    (flowCore env sr ap pis).manifest
      = env.manifest0 ++ entriesOf env sr pis := rfl

theorem flowCore_image_paths (env : Env) (sr ap : Bool)
    (pis : List Nat) :
    (flowCore env sr ap pis).image_paths = imagePathsOf env sr pis := rfl

theorem flowCore_renderCalls (env : Env) (sr ap : Bool)
    (pis : List Nat) :
    (flowCore env sr ap pis).renderCalls
      = pis.filter (fun i => env.rawExists i = false) := rfl

theorem flowCore_refineCalls (env : Env) (sr ap : Bool)
    (pis : List Nat) :
    (flowCore env sr ap pis).refineCalls
      = if sr then []
        else (launchedPages env pis).filter
          (fun i => env.enhancedExists i = false) := rfl

theorem flowCore_assembleCalled (env : Env) (sr ap : Bool)
    (pis : List Nat) :
    (flowCore env sr ap pis).assembleCalled
      = !(imagePathsOf env sr pis).isEmpty := rfl

theorem flowCore_outcome (env : Env) (sr ap : Bool) (pis : List Nat) :
    (flowCore env sr ap pis).outcome
      = { failures := sortedSet ((failuresOf env sr pis).map (· + 1)),
          pptx_path :=
            if imagePathsOf env sr pis = [] then none
            else some FPath.deck } := by
  show finalOutcome _ _ ap = _
  rw [finalOutcome_eq]

theorem refineOne_refined_output (env : Env) (i : Nat) :
    (refineOne env i).status = "refined" →
      (refineOne env i).output_path = .enhanced i := by
  unfold refineOne
  split
  · intro h
    simp at h
  · split
    · intro _
      rfl
    · intro h
      simp at h

theorem refineOne_skipped_output (env : Env) (i : Nat) :
    (refineOne env i).status = "skipped_refine" →
      (refineOne env i).output_path = .enhanced i := by
  unfold refineOne
  split
  · intro _
    rfl
  · split
    · intro h
      simp at h
    · intro h
      simp at h

theorem refineOne_failed_output (env : Env) (i : Nat) :
    (refineOne env i).status = "failed" →
      (refineOne env i).output_path = .raw i := by
  unfold refineOne
  split
  · intro h
    simp at h
  · split
    · intro h
      simp at h
    · intro _
      rfl

theorem renderFailureOf_some (env : Env) (i : Nat) (e : String)
    (hraw : env.rawExists i = false)
    (hrender : env.renderResult i = .error e) :
    renderFailureOf env i = some (i, e) := by
  unfold renderFailureOf
  simp [hraw, hrender]

theorem pyDictGet_of_failed (env : Env) (pis : List Nat) (i : Nat)
    (e : String) (hnd : pis.Nodup) (hi : i ∈ pis)
    (hraw : env.rawExists i = false)
    (hrender : env.renderResult i = .error e) :
    pyDictGet (renderFailuresOf env pis) i = some e := by
  rw [pyDictGet_renderFailures_mem env pis i hnd hi,
    renderFailureOf_some env i e hraw hrender]
  rfl

theorem not_launched_of_failed (env : Env) (pis : List Nat) (i : Nat)
    (e : String) (hnd : pis.Nodup) (hi : i ∈ pis)
    (hraw : env.rawExists i = false)
    (hrender : env.renderResult i = .error e) :
    i ∉ launchedPages env pis := by
  unfold launchedPages
  intro hmem
  have h2 := (List.mem_filter.mp hmem).2
  rw [pyDictGet_of_failed env pis i e hnd hi hraw hrender] at h2
  simp at h2

theorem aggregateOne_render_failed (env : Env) (pis : List Nat)
    (sr : Bool) (i : Nat) (e : String) (hnd : pis.Nodup) (hi : i ∈ pis)
    (hraw : env.rawExists i = false)
    (hrender : env.renderResult i = .error e) :
    aggregateOne (renderFailuresOf env pis)
      (pis.map (renderOutcomeOf env)) (refineOutcomesOf env sr pis) i
      = ({ page_index := i, raw_path := .raw i, enhanced_path := none,
           status := "failed", duration_ms := 0, error := some e },
         none) := by
  have hget := pyDictGet_of_failed env pis i e hnd hi hraw hrender
  have hroi : renderOutcomeOf env i
      = { page_index := i, raw_path := .raw i, duration_ms := 0,
          status := "failed" } := by
    unfold renderOutcomeOf
    simp [hraw, hrender]
  have h1 : dictFindRender (pis.map (renderOutcomeOf env)) i
      = some ({ page_index := i, raw_path := .raw i,
                duration_ms := 0, status := "failed" } : RenderOutcome) := by
    rw [dictFindRender_map env pis i hi, hroi]
  cases sr with
  | false =>
    have h2 : dictFind (refineOutcomesOf env false pis) i = none := by
      show dictFind (collectedOutcomes env pis) i = none
      exact dictFind_collected_none env pis i
        (not_launched_of_failed env pis i e hnd hi hraw hrender)
    simp only [aggregateOne, h1, h2, Option.getD_some, hget]
    by_cases he : e = "" <;> simp [he, hget]
  | true =>
    have hfo : skipRefineOutcome (renderFailuresOf env pis)
        (renderOutcomeOf env i)
        = { page_index := i, enhanced_path := none,
            output_path := .raw i, duration_ms := 0, status := "failed",
            error := some e } := by
      rw [hroi]
      unfold skipRefineOutcome
      simp only [hget]
    have h2 : dictFind (refineOutcomesOf env true pis) i
        = some ({ page_index := i, enhanced_path := none,
                  output_path := .raw i, duration_ms := 0,
                  status := "failed",
                  error := some e } : RefineOutcome) := by
      show dictFind ((pis.map (renderOutcomeOf env)).map
        (skipRefineOutcome (renderFailuresOf env pis))) i = _
      rw [dictFind_skip env pis i hi, hfo]
    simp only [aggregateOne, h1, h2, Option.getD_some]
    by_cases he : e = "" <;> simp [he, hget]

theorem entries_filter_eq (pis : List Nat) (g : Nat → ManifestEntry)
    (hpage : ∀ j, (g j).page_index = j) (i : Nat) (hnd : pis.Nodup)
    (hi : i ∈ pis) :
    (pis.map g).filter (fun en => en.page_index == i) = [g i] := by
  induction pis with
  | nil => cases hi
  | cons a rest ih =>
    have hnd2 := List.nodup_cons.mp hnd
    rw [List.map_cons, List.filter_cons]
    rcases List.mem_cons.mp hi with rfl | hr
    · rw [if_pos (by simp [hpage])]
      have hrest : (rest.map g).filter (fun en => en.page_index == i)
          = [] := by
        apply List.filter_eq_nil_iff.mpr
        intro en hen
        rcases List.mem_map.mp hen with ⟨j, hj, rfl⟩
        simp only [hpage, beq_iff_eq]
        exact fun hji => hnd2.1 (hji ▸ hj)
      rw [hrest]
    · rw [if_neg (by
        simp only [hpage, beq_iff_eq]
        exact fun hai => hnd2.1 (hai ▸ hr))]
      exact ih hnd2.2 hr

/-! ## The claims -/

/-- C10: for every environment (fixing all other inputs and external
results), `build_deck_flow` returns an identical `FlowOutcome` — indeed
an identical `FlowResult` — whether `allow_partial` is `False` or
`True`; the flag never influences the returned value (`flows.py` lines
365-371 return the same `FlowOutcome` on both paths). -/
theorem C10_allow_partial_no_influence (env : Env) (sr : Bool)
    (pg : Option String) :
    build_deck_flow env sr pg true = build_deck_flow env sr pg false := by
  have hcore : ∀ pis, flowCore env sr true pis
      = flowCore env sr false pis := by
    intro pis
    simp only [flowCore, finalOutcome_eq]
  simp only [build_deck_flow, hcore]

/-- C1 counterexample: on a one-page document whose page fails to
render, the image-path list feeding assembly is empty, yet the run does
NOT end in failure: `build_deck_flow` returns `.ok` (a normal
`FlowOutcome`, with `pptx_path = None`) rather than raising a
`NoOutputImages` error — no such error exists in the code, which only
logs "No images available to assemble PPTX.".  The assembler is indeed
never invoked. -/
theorem C1_counterexample :
    build_deck_flow envNoImages true none false
      = Except.ok resultNoImages ∧
    resultNoImages.image_paths = [] ∧
    resultNoImages.assembleCalled = false := by
  refine ⟨by decide, rfl, rfl⟩

/-- C1 as amended: if, after per-page processing, the ordered image-path
list feeding assembly is empty, the assembler is never invoked and the
flow logs an error and returns normally with `pptx_path = None` (no
`NoOutputImages` failure is raised). -/
theorem C1_empty_images_no_assembly (env : Env) (sr : Bool)
    (pg : Option String) (ap : Bool) (r : FlowResult)
    (h : build_deck_flow env sr pg ap = .ok r)
    (him : r.image_paths = []) :
    r.assembleCalled = false ∧ r.outcome.pptx_path = none := by
  obtain ⟨-, pis, hp, -, rfl⟩ := build_deck_flow_ok env sr pg ap r h
  have him2 : imagePathsOf env sr pis = [] := by
    rw [← flowCore_image_paths env sr ap pis]
    exact him
  constructor
  · rw [flowCore_assembleCalled, him2]
    rfl
  · rw [flowCore_outcome]
    simp [him2]

/-- Witness for `C1_empty_images_no_assembly` at the concrete
environment `envNoImages`. -/
theorem C1_witness :
    build_deck_flow envNoImages true none false
      = Except.ok resultNoImages ∧
    resultNoImages.assembleCalled = false ∧
    resultNoImages.outcome.pptx_path = none := by
  have h : build_deck_flow envNoImages true none false
      = Except.ok resultNoImages := by decide
  exact ⟨h, C1_empty_images_no_assembly envNoImages true none false
    resultNoImages h (by decide)⟩

/-- C8 counterexample: on a resumed page (enhanced file already exists)
the pipeline produces a `RefineOutcome` with status `skipped_refine`
whose `output_path` is the ENHANCED path, not the raw path as the claim
states for every skip status: the image list passed to assembly holds
`enhanced/page_0001.png`. -/
theorem C8_counterexample :
    build_deck_flow envResumedPage false none false
      = Except.ok resultResumedPage ∧
    resultResumedPage.manifest.map (·.status) = ["skipped_refine"] ∧
    resultResumedPage.image_paths = [FPath.enhanced 0] ∧
    FPath.enhanced 0 ≠ FPath.raw 0 := by
  refine ⟨by decide, rfl, rfl, by decide⟩

/-- C8 as amended: `output_path` equals the enhanced path when the
refine succeeded (`refined`) or was skipped because the enhanced file
already exists (`skipped_refine`), and equals the raw path for
`skip_refine` (render-only run, where it is the render outcome's raw
path) and `failed`. -/
theorem C8_output_path_by_status (env : Env) (i : Nat)
    (fails : List (Nat × String)) (ro : RenderOutcome) :
    ((refineOne env i).status = "refined" →
      (refineOne env i).output_path = FPath.enhanced i) ∧
    ((refineOne env i).status = "skipped_refine" →
      (refineOne env i).output_path = FPath.enhanced i) ∧
    ((refineOne env i).status = "failed" →
      (refineOne env i).output_path = FPath.raw i) ∧
    ((skipRefineOutcome fails ro).status = "skip_refine" ∨
      (skipRefineOutcome fails ro).status = "failed") ∧
    (skipRefineOutcome fails ro).output_path = ro.raw_path := by
  refine ⟨refineOne_refined_output env i, refineOne_skipped_output env i,
    refineOne_failed_output env i, ?_, skipRefineOutcome_output fails ro⟩
  unfold skipRefineOutcome
  split
  · exact Or.inr rfl
  · exact Or.inl rfl

/-- Witness for `C8_output_path_by_status` at `envResumedPage`: a
`skipped_refine` outcome whose output path is the enhanced path. -/
theorem C8_witness :
    (refineOne envResumedPage 0).status = "skipped_refine" ∧
    (refineOne envResumedPage 0).output_path = FPath.enhanced 0 :=
  ⟨by decide,
    (C8_output_path_by_status envResumedPage 0 []
      { page_index := 0, raw_path := .raw 0, duration_ms := 0,
        status := "skipped_render" }).2.1 (by decide)⟩

/-- C4: for every run that returns (any environment, hence any
completion order `Env.arrival`), the manifest entries this run appended
and the image-path list passed to assembly are strictly ordered by
ascending page index. -/
theorem C4_ordering (env : Env) (sr : Bool) (pg : Option String)
    (ap : Bool) (r : FlowResult)
    (h : build_deck_flow env sr pg ap = .ok r) :
    ((r.manifest.drop env.manifest0.length).map
        (·.page_index)).Pairwise (· < ·) ∧
    (r.image_paths.map FPath.page).Pairwise (· < ·) := by
  obtain ⟨-, pis, hp, -, rfl⟩ := build_deck_flow_ok env sr pg ap r h
  have hs := (parse_pages_sorted pg env.totalPages pis hp).1
  constructor
  · rw [flowCore_manifest, List.drop_left, entriesOf_pages]
    exact hs
  · rw [flowCore_image_paths]
    exact imagePaths_pairwise env sr pis hs

/-- Witness for `C4_ordering` at `envMidFailure`, whose completion
order `[2, 0]` is reversed relative to page order. -/
theorem C4_witness :
    ((resultMidFailure.manifest.drop
        envMidFailure.manifest0.length).map
        (·.page_index)).Pairwise (· < ·) ∧
    (resultMidFailure.image_paths.map FPath.page).Pairwise (· < ·) :=
  C4_ordering envMidFailure false none false resultMidFailure (by decide)

/-- C3: re-running the flow on an output directory where every selected
page's raw and enhanced files already exist (a completed prior run with
no files deleted) performs zero render calls and zero refine calls —
every page resolves through the `skipped_render` / `skipped_refine`
exists-checks with zero duration — and the manifest gains a full second
set of entries appended after the prior ones, none rewritten or
deduplicated.  This holds for every completion order `Env.arrival` of
the second run's tasks. -/
theorem C3_idempotent_resume (env : Env) (pg : Option String) (ap : Bool)
    (pis : List Nat) (r : FlowResult)
    (hparse : parse_pages pg env.totalPages = .ok pis)
    (hex : ∀ i ∈ pis,
      env.rawExists i = true ∧ env.enhancedExists i = true)
    (harr : env.arrival.Perm pis)
    (hflow : build_deck_flow env false pg ap = .ok r) :
    r.renderCalls = [] ∧ r.refineCalls = [] ∧
      r.manifest = env.manifest0 ++ pis.map (fun i =>
        ({ page_index := i, raw_path := .raw i,
           enhanced_path := some (.enhanced i),
           status := "skipped_refine", duration_ms := 0,
           error := none } : ManifestEntry)) := by
  obtain ⟨-, pis2, hp2, -, rfl⟩ := build_deck_flow_ok env false pg ap r hflow
  rw [hparse] at hp2
  obtain rfl : pis = pis2 := Except.ok.inj hp2
  have hfail : ∀ i ∈ pis, renderFailureOf env i = none := by
    intro i hi
    unfold renderFailureOf
    simp [(hex i hi).1]
  have hfails_nil : renderFailuresOf env pis = [] := by
    unfold renderFailuresOf
    exact List.filterMap_eq_nil_iff.mpr hfail
  have hlaunched : launchedPages env pis = pis := by
    unfold launchedPages
    rw [hfails_nil]
    apply List.filter_eq_self.mpr
    intro i _
    rfl
  refine ⟨?_, ?_, ?_⟩
  · rw [flowCore_renderCalls]
    apply List.filter_eq_nil_iff.mpr
    intro i hi
    simp [(hex i hi).1]
  · rw [flowCore_refineCalls, if_neg (by decide), hlaunched]
    apply List.filter_eq_nil_iff.mpr
    intro i hi
    simp [(hex i hi).2]
  · rw [flowCore_manifest]
    congr 1
    unfold entriesOf aggregatedOf
    rw [List.map_map]
    apply List.map_congr_left
    intro i hi
    have hroi : renderOutcomeOf env i
        = { page_index := i, raw_path := .raw i, duration_ms := 0,
            status := "skipped_render" } := by
      unfold renderOutcomeOf
      simp [(hex i hi).1]
    have hfoi : refineOne env i
        = { page_index := i, enhanced_path := some (.enhanced i),
            output_path := .enhanced i, duration_ms := 0,
            status := "skipped_refine", error := none } := by
      unfold refineOne
      simp [(hex i hi).2]
    have h1 : dictFindRender (pis.map (renderOutcomeOf env)) i
        = some ({ page_index := i, raw_path := .raw i,
                  duration_ms := 0,
                  status := "skipped_render" } : RenderOutcome) := by
      rw [dictFindRender_map env pis i hi, hroi]
    have h2 : dictFind (refineOutcomesOf env false pis) i
        = some ({ page_index := i, enhanced_path := some (.enhanced i),
                  output_path := .enhanced i, duration_ms := 0,
                  status := "skipped_refine",
                  error := none } : RefineOutcome) := by
      show dictFind (collectedOutcomes env pis) i = _
      rw [dictFind_collected_some env pis i (hlaunched.symm ▸ hi)
        (harr.mem_iff.mpr hi), hfoi]
    simp only [Function.comp_apply, aggregateOne, h1, h2,
      Option.getD_some, hfails_nil]
    rfl

/-- Witness for `C3_idempotent_resume` at `envSecondRun` (two resumed
pages, reversed arrival order, one prior manifest entry). -/
theorem C3_witness :
    resultSecondRun.renderCalls = [] ∧
    resultSecondRun.refineCalls = [] ∧
    resultSecondRun.manifest
      = envSecondRun.manifest0 ++ [0, 1].map (fun i =>
        ({ page_index := i, raw_path := .raw i,
           enhanced_path := some (.enhanced i),
           status := "skipped_refine", duration_ms := 0,
           error := none } : ManifestEntry)) :=
  C3_idempotent_resume envSecondRun none true [0, 1] resultSecondRun
    (by decide) (by decide) (by decide) (by decide)

/-- C5: a selected page whose render stage fails is never submitted to
the refine stage (it is excluded from the launched tasks, so never
appears in `refineCalls`), never contributes an image path to assembly,
and receives exactly one appended manifest entry, with status `failed`
and the render exception as its non-null error. -/
theorem C5_render_failure_isolated (env : Env) (sr : Bool)
    (pg : Option String) (ap : Bool) (r : FlowResult) (pis : List Nat)
    (i : Nat) (e : String)
    (hflow : build_deck_flow env sr pg ap = .ok r)
    (hparse : parse_pages pg env.totalPages = .ok pis)
    (hi : i ∈ pis) (hraw : env.rawExists i = false)
    (hrender : env.renderResult i = .error e) :
    i ∉ r.refineCalls ∧
    (∀ p ∈ r.image_paths, p.page ≠ i) ∧
    (r.manifest.drop env.manifest0.length).filter
        (fun en => en.page_index == i)
      = [{ page_index := i, raw_path := .raw i, enhanced_path := none,
           status := "failed", duration_ms := 0,
           error := some e }] := by
  obtain ⟨-, pis2, hp2, -, rfl⟩ := build_deck_flow_ok env sr pg ap r hflow
  rw [hparse] at hp2
  obtain rfl : pis = pis2 := Except.ok.inj hp2
  have hnd : pis.Nodup := parse_pages_nodup pg env.totalPages pis hparse
  have hagg := aggregateOne_render_failed env pis sr i e hnd hi hraw
    hrender
  refine ⟨?_, ?_, ?_⟩
  · rw [flowCore_refineCalls]
    cases sr with
    | true => simp
    | false =>
      rw [if_neg (by decide)]
      intro hmem
      exact not_launched_of_failed env pis i e hnd hi hraw hrender
        (List.mem_of_mem_filter hmem)
  · rw [flowCore_image_paths, imagePathsOf_eq_filterMap]
    intro p hp hpage
    rcases List.mem_filterMap.mp hp with ⟨j, hj, hgj⟩
    have hpj : p.page = j := aggregateOne_image_page _ _ _ j p
      (refineOutcomes_output env sr pis) hgj
    have hji : j = i := by rw [← hpj, hpage]
    rw [hji, hagg] at hgj
    simp at hgj
  · rw [flowCore_manifest, List.drop_left]
    unfold entriesOf aggregatedOf
    rw [List.map_map]
    rw [entries_filter_eq pis _ (fun j => rfl) i hnd hi]
    show [(aggregateOne (renderFailuresOf env pis)
      (pis.map (renderOutcomeOf env))
      (refineOutcomesOf env sr pis) i).1] = _
    rw [hagg]

/-- Witness for `C5_render_failure_isolated` at `envMidFailure`, whose
page 1 fails to render with "render broke". -/
theorem C5_witness :
    1 ∉ resultMidFailure.refineCalls ∧
    (∀ p ∈ resultMidFailure.image_paths, p.page ≠ 1) ∧
    (resultMidFailure.manifest.drop
        envMidFailure.manifest0.length).filter
        (fun en => en.page_index == 1)
      = [{ page_index := 1, raw_path := .raw 1, enhanced_path := none,
           status := "failed", duration_ms := 0,
           error := some "render broke" }] :=
  C5_render_failure_isolated envMidFailure false none false
    resultMidFailure [0, 1, 2] 1 "render broke" (by decide) (by decide)
    (by decide) (by decide) (by decide)

/-- C2 counterexample: a malformed response (the `RuntimeError`
"Gemini API response missing parts." raised by the response parser) is
NOT fatal-and-immediate in `tasks.refine_page_task`: the generic
`except Exception` arm retries it with backoff up to `max_attempts`, so
with the default `max_attempts = 5` the loop runs 5 attempts and sleeps
4 times before the error finally propagates — contradicting "every
other failure ... propagates immediately ... without further retry
attempts".  (The error is still propagated at the end, not
swallowed.) -/
theorem C2_counterexample :
    refine_page_loop malformedOracle 5
      = { result :=
            .error (.other "Gemini API response missing parts."),
          attemptsMade := 5,
          sleeps := [backoff_sleep 1, backoff_sleep 2, backoff_sleep 3,
            backoff_sleep 4] } ∧
    backoff_sleep 1 = 8 / 5 ∧ backoff_sleep 2 = 49 / 20 ∧
    backoff_sleep 3 = 147 / 40 ∧ backoff_sleep 4 = 437 / 80 := by
  refine ⟨rfl, ?_, ?_, ?_, ?_⟩ <;> norm_num [backoff_sleep]

/-- C2 as amended: the loop retries only attempts whose failure is
retry-eligible — a retryable `GeminiAPIError` (HTTP 429/5xx) or any
non-`GeminiAPIError` exception, which includes malformed responses; a
non-retryable `GeminiAPIError` on the first attempt propagates
immediately with no retry and no sleep; and whenever the loop ends in
an error, that error is exactly the last attempt's exception — it is
never silently swallowed. -/
theorem C2_retry_classification (oracle : Nat → AttemptResult)
    (max_attempts : Nat) :
    (∀ k, k + 1 < (refine_page_loop oracle max_attempts).attemptsMade →
      wasRetried (oracle k) = true) ∧
    (∀ e, (refine_page_loop oracle max_attempts).result = .error e →
      toErr (oracle
        ((refine_page_loop oracle max_attempts).attemptsMade - 1))
        = some e) ∧
    (∀ sc m, 0 < max_attempts → oracle 0 = .geminiError sc m →
      is_retryable sc = false →
      refine_page_loop oracle max_attempts
        = { result := .error (.gemini sc m), attemptsMade := 1,
            sleeps := [] }) := by
  refine ⟨?_, ?_, ?_⟩
  · intro k hk
    exact refineLoopGo_wasRetried oracle max_attempts max_attempts 0 k
      (Nat.zero_le k) hk
  · intro e he
    exact (refineLoopGo_result oracle max_attempts max_attempts 0
      (by omega)).1 e he
  · intro sc m hmax h0 hnr
    exact refineLoop_fatal_immediate oracle max_attempts sc m hmax h0 hnr

/-- Witness for `C2_retry_classification`: a non-retryable HTTP 400
`GeminiAPIError` on the first attempt propagates immediately. -/
theorem C2_witness :
    refine_page_loop fatalOracle 5
      = { result := .error (.gemini 400 "bad request"),
          attemptsMade := 1, sleeps := [] } :=
  (C2_retry_classification fatalOracle 5).2.2 400 "bad request"
    (by decide) (by decide) (by decide)

/-- C7: in the retry loop of `refine_page_task` with its default bound
of 5 attempts (`tasks.py`; the concurrently launched Prefect task in
`flows.py` is additionally configured with `retries=5`), every retry of
a failed attempt `k` (1-based) first sleeps `backoff_sleep k =
1.5^k + 0.1*k` seconds, at most 5 attempts run, and once attempts are
exhausted the final exception propagates — surfacing in the flow as a
page-level `failed` outcome (`refineOne` on a failing refine result). -/
theorem C7_backoff_schedule (oracle : Nat → AttemptResult) :
    (∀ k, backoff_sleep k = (3 / 2 : ℚ) ^ k + (k : ℚ) / 10) ∧
    (refine_page_loop oracle 5).attemptsMade ≤ 5 ∧
    (refine_page_loop oracle 5).sleeps
      = (List.range ((refine_page_loop oracle 5).attemptsMade - 1)).map
          (fun k => backoff_sleep (k + 1)) ∧
    (∀ e, (refine_page_loop oracle 5).result = .error e →
      toErr (oracle ((refine_page_loop oracle 5).attemptsMade - 1))
        = some e) ∧
    (∀ env i e d, env.enhancedExists i = false →
      env.refineResult i = .error (e, d) →
      (refineOne env i).status = "failed" ∧
        (refineOne env i).error = some e) := by
  refine ⟨fun k => rfl, ?_, ?_, ?_, ?_⟩
  · show (refineLoopGo oracle 5 5 0).attemptsMade ≤ 5
    have := (refineLoopGo_attempts_le oracle 5 5 0).2
    omega
  · have := refineLoopGo_sleeps oracle 5 5 0 (by omega)
    rw [show (refineLoopGo oracle 5 5 0).attemptsMade - 1 - 0
        = (refineLoopGo oracle 5 5 0).attemptsMade - 1 by omega] at this
    rw [show refine_page_loop oracle 5 = refineLoopGo oracle 5 5 0
        from rfl, this]
    apply List.map_congr_left
    intro j _
    congr 1
    omega
  · intro e he
    exact (refineLoopGo_result oracle 5 5 0 (by omega)).1 e he
  · intro env i e d hen hres
    unfold refineOne
    rw [hen, hres]
    exact ⟨rfl, rfl⟩

/-- Witness for `C7_backoff_schedule` at `flakyOracle` (two retryable
500 failures, then success): three attempts, sleeping
`1.5^1 + 0.1`, then `1.5^2 + 0.2`. -/
theorem C7_witness :
    (refine_page_loop flakyOracle 5).attemptsMade ≤ 5 ∧
    (refine_page_loop flakyOracle 5).sleeps
      = (List.range
          ((refine_page_loop flakyOracle 5).attemptsMade - 1)).map
          (fun k => backoff_sleep (k + 1)) ∧
    (refine_page_loop flakyOracle 5).attemptsMade = 3 ∧
    backoff_sleep 1 = 8 / 5 ∧ backoff_sleep 2 = 49 / 20 :=
  ⟨(C7_backoff_schedule flakyOracle).2.1,
   (C7_backoff_schedule flakyOracle).2.2.1, by decide,
   by norm_num [backoff_sleep], by norm_num [backoff_sleep]⟩

/-- C6: `parse_pages` returns, for every selector and total on which it
succeeds, a strictly ascending (hence duplicate-free) list of zero-based
indices all below `total`; on the spec's example it returns exactly
`[0,1,2,4,6,7,8]`; and a singleton or range part whose parsed endpoint
is non-positive raises `ValueError("Page numbers must be positive.")`
(the spec's `InvalidSelection`), which aborts the whole parse. -/
theorem C6_parse_pages_spec :
    (∀ sel total l, parse_pages sel total = Except.ok l →
      l.Pairwise (· < ·) ∧ ∀ x ∈ l, x < total) ∧
    parse_pages (some "1-3,5,7-9") 12
      = Except.ok [0, 1, 2, 4, 6, 7, 8] ∧
    (∀ part k, trimChars part ≠ [] →
      (trimChars part).contains '-' = false →
      pyIntChars (trimChars part) = Except.ok k → k ≤ 0 →
      process_part part
        = Except.error "Page numbers must be positive.") ∧
    (∀ part a b, trimChars part ≠ [] →
      (trimChars part).contains '-' = true →
      pyIntChars ((splitOnChar '-' (trimChars part)).headD [])
        = Except.ok a →
      pyIntChars (joinWithChar '-' (splitOnChar '-' (trimChars part)).tail)
        = Except.ok b →
      (a ≤ 0 ∨ b ≤ 0) →
      process_part part
        = Except.error "Page numbers must be positive.") ∧
    (∀ s total part e, part ∈ splitOnChar ',' s.data →
      process_part part = Except.error e →
      ∃ e2, parse_pages (some s) total = Except.error e2) := by
  refine ⟨parse_pages_sorted, by decide,
    process_part_singleton_nonpositive,
    process_part_range_nonpositive, parse_pages_part_error⟩

/-- Witness for `C6_parse_pages_spec`: the example selector, the
singleton `"0"`, and the range `"3-0"`. -/
theorem C6_witness :
    ([0, 1, 2, 4, 6, 7, 8].Pairwise (· < ·) ∧
      ∀ x ∈ [0, 1, 2, 4, 6, 7, 8], x < 12) ∧
    process_part "0".data
      = Except.error "Page numbers must be positive." ∧
    process_part "3-0".data
      = Except.error "Page numbers must be positive." ∧
    ∃ e2, parse_pages (some "0") 5 = Except.error e2 := by
  refine ⟨C6_parse_pages_spec.1 (some "1-3,5,7-9") 12 _
      C6_parse_pages_spec.2.1, ?_, ?_, ?_⟩
  · exact C6_parse_pages_spec.2.2.1 "0".data 0 (by decide) (by decide)
      (by decide) (by decide)
  · exact C6_parse_pages_spec.2.2.2.1 "3-0".data 3 0 (by decide)
      (by decide) (by decide) (by decide) (Or.inr (by decide))
  · exact C6_parse_pages_spec.2.2.2.2 "0" 5 "0".data
      "Page numbers must be positive." (by decide)
      (C6_parse_pages_spec.2.2.1 "0".data 0 (by decide) (by decide)
        (by decide) (by decide))

end SlideRefiner
